import Mathlib

/-!
Shallow embedding of the Temp-Mail bot's mailbox lifecycle logic:
the quota and eviction policy of `newmail.py`, the delete-selection
flow of `deletemail.py`, and the provider client of `mailgun.py`.

Timestamps are modelled as natural-number ticks, database sessions as
explicit state passing (the `get_session` context manager of `db.py`
commits on normal return and rolls back on an uncaught exception; each
handler below returns the state that gets committed on its normal-return
paths), and the remote Mailgun API as oracle parameters describing the
responses the provider would give.
-/

namespace TempMail

/-- A row of the `mails` table (`models.py`): surrogate primary key,
owning user id, globally unique address, active flag, creation
timestamp. -/
structure Mail where
  id : Nat
  user_id : Nat
  email : String
  is_active : Bool
  created_at : Nat
deriving DecidableEq

/-- A row of the `users` table (`models.py`). -/
structure User where
  telegram_id : Nat
  username : Option String
  created_at : Nat
deriving DecidableEq

/-- The relational store: the two tables of `models.py`. -/
structure DB where
  users : List User
  mails : List Mail
deriving DecidableEq

/-- `MAX_MAILS_PER_USER` from `newmail.py`. -/
def MAX_MAILS_PER_USER : Nat := 100

/-- The count query of `newmail.py` lines 58-60:
`session.query(func.count(Mail.id)).filter(Mail.user_id == telegram_id)`. -/
def mailCount (db : DB) (uid : Nat) : Nat :=
  (db.mails.filter (fun m => m.user_id == uid)).length

/-- Of two mails, the one created earlier (the second wins only when
strictly older, matching a stable ascending sort taking the first row). -/
def pickOlder (a b : Mail) : Mail :=
  if b.created_at < a.created_at then b else a

/-- The oldest-mail query of `newmail.py` lines 112-114:
`session.query(Mail).filter(Mail.user_id == telegram_id)
  .order_by(Mail.created_at.asc()).first()`. -/
def oldestMail (db : DB) (uid : Nat) : Option Mail :=
  match db.mails.filter (fun m => m.user_id == uid) with
  | [] => none
  | m :: rest => some (rest.foldl pickOlder m)

/-- `session.delete(row)`: removal of a row by primary key. -/
def deleteMailById (db : DB) (i : Nat) : DB :=
  { db with mails := db.mails.filter (fun m => m.id != i) }

/-- Lines 42-55 of `newmail.py`: look the user up by telegram id and
auto-register them if absent. -/
def ensureUser (db : DB) (uid : Nat) (username : Option String) (now : Nat) : DB :=
  if db.users.any (fun u => u.telegram_id == uid) then db
  else { db with users := db.users ++ [⟨uid, username, now⟩] }

/-- `handle_mail_limit` (`newmail.py` lines 106-138): find the user's
oldest mail; if one exists, attempt the provider-side `delete_email`
(whose `MailgunError` is logged and swallowed, so `providerDeleteOk`
does not influence the store transition), then delete the store row.
Returns the new store state and the auto-deleted address reported to
the user, if any. -/
def handle_mail_limit (db : DB) (uid : Nat) (providerDeleteOk : Bool) :
    DB × Option String :=
  match oldestMail db uid with
  | none => (db, none)
  | some m => (deleteMailById db m.id, some m.email)

/-- The user-visible outcome of `/newmail`. -/
inductive NewmailReply where
  | success (email : String) (count : Nat)
  | createFailed
deriving DecidableEq

/-- Result of one `/newmail` command: committed store state, reply, and
the auto-deleted address announced by `handle_mail_limit`, if any. -/
structure NewmailResult where
  db : DB
  reply : NewmailReply
  evicted : Option String
deriving DecidableEq

/-- `newmail_handler` (`newmail.py` lines 22-103). `createResult` is the
oracle for `create_email()`: `some addr` when the provider returns a
fresh address, `none` when it raises `MailgunError` (that exception is
caught, an apology is sent, and the handler returns — so `get_session`
still commits the state reached so far). `newId` is the surrogate key
the store assigns to the inserted row; `now` its creation timestamp. -/
def newmail_handler (db : DB) (uid : Nat) (username : Option String) (now : Nat)
    (providerDeleteOk : Bool) (createResult : Option String) (newId : Nat) :
    NewmailResult :=
  let db1 := ensureUser db uid username now
  let mail_count := mailCount db1 uid
  let p := if MAX_MAILS_PER_USER ≤ mail_count
           then handle_mail_limit db1 uid providerDeleteOk
           else (db1, none)
  match createResult with
  | none => { db := p.1, reply := .createFailed, evicted := p.2 }
  | some email =>
      let db3 := { p.1 with mails := p.1.mails ++ [⟨newId, uid, email, true, now⟩] }
      let new_count := if mail_count < MAX_MAILS_PER_USER
                       then mail_count + 1 else mail_count
      { db := db3, reply := .success email new_count, evicted := p.2 }

/-- One entry of `context.user_data["delete_mails"]` (`deletemail.py`
lines 47-49): the id and address of a displayed mail. -/
structure StoredMail where
  id : Nat
  email : String
deriving DecidableEq

/-- Python's `str.isdigit` for ASCII strings: nonempty and all digits. -/
def isDigitString (s : String) : Bool :=
  !s.data.isEmpty && s.data.all Char.isDigit

/-- Python's `str.lower` for ASCII strings. -/
def lowerStr (s : String) : String :=
  ⟨s.data.map Char.toLower⟩

/-- Python's `str.strip`: drop leading and trailing whitespace. -/
def trimStr (s : String) : String :=
  ⟨((s.data.dropWhile Char.isWhitespace).reverse.dropWhile Char.isWhitespace).reverse⟩

/-- `int(s)` for a digit string: base-ten value. -/
def natOfDigits (s : String) : Nat :=
  s.data.foldl (fun n c => 10 * n + (c.toNat - 48)) 0

/-- Lines 98-111 of `deletemail.py`: resolve the user's reply to a
displayed mail. A digit string is a 1-based position into the displayed
(newest-first) list; anything else must match a displayed address
case-insensitively (first match wins). -/
def find_mail_to_delete (stored : List StoredMail) (s : String) :
    Option StoredMail :=
  if isDigitString s then
    let idx : Int := (natOfDigits s : Int) - 1
    if 0 ≤ idx ∧ idx < (stored.length : Int) then stored[idx.toNat]? else none
  else
    stored.find? (fun m => lowerStr m.email == lowerStr s)

/-- The user-visible outcome of the delete-confirmation step. -/
inductive DeleteOutcome where
  | sessionExpired
  | reprompt
  | notFound
  | deleted (email : String)
deriving DecidableEq

/-- Result of the delete-confirmation step: committed store state and
outcome (`reprompt` keeps the conversation in the selection state; the
others end it). -/
structure DeleteResult where
  db : DB
  outcome : DeleteOutcome
deriving DecidableEq

/-- `delete_confirmation_handler` (`deletemail.py` lines 77-167). The
input is stripped; an empty stored list means the session expired; an
unresolvable selection re-prompts with no store access; otherwise the
selected id is looked up filtered by the requesting user's id, a missing
row reports not-found, and a present row is removed (the provider-side
`delete_email` outcome `providerDeleteOk` is logged and swallowed). -/
def delete_confirmation_handler (db : DB) (uid : Nat) (stored : List StoredMail)
    (rawInput : String) (providerDeleteOk : Bool) : DeleteResult :=
  let s := trimStr rawInput
  if stored.isEmpty then ⟨db, .sessionExpired⟩
  else
    match find_mail_to_delete stored s with
    | none => ⟨db, .reprompt⟩
    | some sm =>
        match db.mails.find? (fun m => m.id == sm.id && m.user_id == uid) with
        | none => ⟨db, .notFound⟩
        | some dbm => ⟨deleteMailById db dbm.id, .deleted dbm.email⟩

/-- A Mailgun routing rule as returned by `GET /routes`: `route.get("id")`
may be absent (and Python also treats an empty id as falsy), and the
rule's matching `expression`. -/
structure Route where
  id : Option String
  expression : String
deriving DecidableEq

/-- Python's `needle in hay` substring test. -/
def strContains (hay needle : String) : Bool :=
  hay.data.tails.any (fun t => needle.data.isPrefixOf t)

/-- `get_routes_for_email` (`mailgun.py` lines 163-197): `lookup` is the
oracle for the `GET /routes` call (`none` when its status is not 200,
which raises `MailgunError`); on success the routes whose expression
contains the address as a substring are kept. `cfg` models
`validate_config()` (missing credentials raise `MailgunError`). -/
def get_routes_for_email (cfg : Bool) (lookup : Option (List Route))
    (address : String) : Except Unit (List Route) :=
  if !cfg then .error () else
  match lookup with
  | none => .error ()
  | some items => .ok (items.filter (fun r => strContains r.expression address))

/-- `delete_route` (`mailgun.py` lines 200-228): `status` is the HTTP
status of the `DELETE /routes/{id}` call; 200 and 404 succeed, anything
else raises `MailgunError`. -/
def delete_route (cfg : Bool) (status : Nat) : Except Unit Bool :=
  if !cfg then .error () else
  if status == 200 || status == 404 then .ok true else .error ()

/-- The loop of `delete_email` lines 150-153: delete each route that has
a truthy id, propagating the first `MailgunError`. `delStatus` is the
oracle giving the HTTP status of deleting a given route id. -/
def deleteRoutesLoop (cfg : Bool) (delStatus : String → Nat) :
    List Route → Except Unit Unit
  | [] => .ok ()
  | r :: rs =>
      match r.id with
      | some rid =>
          if rid ≠ "" then
            match delete_route cfg (delStatus rid) with
            | .error e => .error e
            | .ok _ => deleteRoutesLoop cfg delStatus rs
          else deleteRoutesLoop cfg delStatus rs
      | none => deleteRoutesLoop cfg delStatus rs

/-- `delete_email` (`mailgun.py` lines 128-160): look up the routes
matching the address, delete each one, and return `True`; any
`MailgunError` from the lookup or an individual deletion propagates. -/
def delete_email (cfg : Bool) (lookup : Option (List Route))
    (delStatus : String → Nat) (address : String) : Except Unit Bool :=
  if !cfg then .error () else
  match get_routes_for_email cfg lookup address with
  | .error e => .error e
  | .ok routes =>
      match deleteRoutesLoop cfg delStatus routes with
      | .error e => .error e
      | .ok _ => .ok true

/-- The mails owned by users other than `uid`: the frame for per-user
commands. -/
def othersOf (db : DB) (uid : Nat) : List Mail :=
  db.mails.filter (fun m => !(m.user_id == uid))

/-- A small concrete store: user 1 with two mails. -/
def dbW : DB :=
  ⟨[⟨1, none, 0⟩], [⟨10, 1, "a@x", true, 5⟩, ⟨11, 1, "b@x", true, 3⟩]⟩

/-- A store in which user 1 holds exactly `MAX_MAILS_PER_USER` mails. -/
def dbFull : DB :=
  ⟨[⟨1, none, 0⟩], (List.range 100).map (fun i => ⟨i, 1, "", true, i⟩)⟩

/-- A store in which user 1 holds 101 mails, one over the limit. -/
def dbOver : DB :=
  ⟨[⟨1, none, 0⟩], (List.range 101).map (fun i => ⟨i, 1, "", true, i⟩)⟩

/-- The displayed list of the spec's delete-by-position example,
newest first. -/
def storedW : List StoredMail :=
  [⟨3, "a@x"⟩, ⟨2, "b@x"⟩, ⟨1, "c@x"⟩]

/-- A store with two users, one mail each. -/
def dbTwo : DB :=
  ⟨[⟨1, none, 0⟩, ⟨2, none, 0⟩],
   [⟨10, 1, "a@x", true, 5⟩, ⟨20, 2, "q@y", true, 1⟩]⟩

/-- A concrete provider route listing: one route for `a@x` with a
truthy id, one matching route with a missing id, one with an empty id,
and one route for another address. -/
def routesW : List Route :=
  [⟨some "r1", "match_recipient(\"a@x\")"⟩,
   ⟨none, "a@x forwarded"⟩,
   ⟨some "", "a@x stopped"⟩,
   ⟨some "r2", "match_recipient(\"other@x\")"⟩]

/-- A concrete deletion-status oracle: route `r1` answers 404
(already gone), everything else 500. -/
def delStatusW : String → Nat :=
  fun rid => if rid = "r1" then 404 else 500

/-! ### Helper lemmas -/

theorem ensureUser_mails (db : DB) (uid : Nat) (un : Option String) (now : Nat) :
    (ensureUser db uid un now).mails = db.mails := by
  unfold ensureUser; split <;> rfl

theorem mailCount_ensureUser (db : DB) (uid : Nat) (un : Option String) (now : Nat)
    (v : Nat) : mailCount (ensureUser db uid un now) v = mailCount db v := by
  unfold mailCount; rw [ensureUser_mails]

theorem oldestMail_ensureUser (db : DB) (uid : Nat) (un : Option String) (now : Nat)
    (v : Nat) : oldestMail (ensureUser db uid un now) v = oldestMail db v := by
  unfold oldestMail; rw [ensureUser_mails]

theorem foldl_pickOlder_mem (rest : List Mail) (m : Mail) :
    rest.foldl pickOlder m ∈ m :: rest := by
  induction rest generalizing m with
  | nil => simp
  | cons a l ih =>
    simp only [List.foldl_cons]
    have hpa : pickOlder m a = m ∨ pickOlder m a = a := by
      unfold pickOlder; split <;> simp
    rcases List.mem_cons.mp (ih (pickOlder m a)) with h | h
    · rcases hpa with h2 | h2 <;> rw [h, h2] <;> simp
    · exact List.mem_cons_of_mem _ (List.mem_cons_of_mem _ h)

theorem foldl_pickOlder_le (rest : List Mail) (m : Mail) :
    ∀ x ∈ m :: rest, (rest.foldl pickOlder m).created_at ≤ x.created_at := by
  induction rest generalizing m with
  | nil =>
    intro x hx
    rcases List.mem_cons.mp hx with rfl | hx'
    · exact Nat.le_refl _
    · cases hx'
  | cons a l ih =>
    intro x hx
    simp only [List.foldl_cons]
    have hle : (pickOlder m a).created_at ≤ m.created_at ∧
        (pickOlder m a).created_at ≤ a.created_at := by
      unfold pickOlder; split <;> constructor <;> omega
    have hhead := ih (pickOlder m a) (pickOlder m a) (List.mem_cons_self _ _)
    rcases List.mem_cons.mp hx with rfl | hx'
    · exact Nat.le_trans hhead hle.1
    · rcases List.mem_cons.mp hx' with rfl | hx''
      · exact Nat.le_trans hhead hle.2
      · exact ih (pickOlder m a) x (List.mem_cons_of_mem _ hx'')

theorem oldest_spec (db : DB) (uid : Nat) (h : 0 < mailCount db uid) :
    ∃ m, oldestMail db uid = some m ∧ m ∈ db.mails ∧ m.user_id = uid ∧
      ∀ m' ∈ db.mails, m'.user_id = uid → m.created_at ≤ m'.created_at := by
  unfold mailCount at h
  rcases hll : db.mails.filter (fun m => m.user_id == uid) with _ | ⟨m0, rest⟩
  · rw [hll] at h; simp at h
  · refine ⟨rest.foldl pickOlder m0, ?_, ?_, ?_, ?_⟩
    · unfold oldestMail; rw [hll]
    · have hsub : rest.foldl pickOlder m0 ∈
          db.mails.filter (fun m => m.user_id == uid) :=
        hll ▸ foldl_pickOlder_mem rest m0
      exact (List.mem_filter.mp hsub).1
    · have hsub : rest.foldl pickOlder m0 ∈
          db.mails.filter (fun m => m.user_id == uid) :=
        hll ▸ foldl_pickOlder_mem rest m0
      simpa using (List.mem_filter.mp hsub).2
    · intro m' hm' hu'
      have : m' ∈ db.mails.filter (fun m => m.user_id == uid) :=
        List.mem_filter.mpr ⟨hm', by simpa using hu'⟩
      rw [hll] at this
      exact foldl_pickOlder_le rest m0 m' this

theorem filter_user_delete (uid : Nat) (m : Mail) (l : List Mail)
    (hnd : (l.map Mail.id).Nodup) (hm : m ∈ l) (hu : m.user_id = uid) :
    ((l.filter (fun x => x.id != m.id)).filter (fun x => x.user_id == uid)).length + 1
      = (l.filter (fun x => x.user_id == uid)).length := by
  induction l with
  | nil => cases hm
  | cons a l ih =>
    rw [List.map_cons, List.nodup_cons] at hnd
    obtain ⟨ha, hnd'⟩ := hnd
    rcases List.mem_cons.mp hm with rfl | hm'
    · have hall : l.filter (fun x => x.id != m.id) = l := by
        apply List.filter_eq_self.mpr
        intro x hx
        simp only [bne_iff_ne, ne_eq]
        intro hxe
        exact ha (hxe ▸ List.mem_map_of_mem Mail.id hx)
      simp [List.filter_cons, hu, hall]
    · have hne : a.id ≠ m.id := fun h => ha (h ▸ List.mem_map_of_mem Mail.id hm')
      have hrec := ih hnd' hm'
      by_cases hau : a.user_id = uid
      · simpa [List.filter_cons, hne, hau] using hrec
      · simpa [List.filter_cons, hne, hau] using hrec

theorem newmail_under_some (db : DB) (uid : Nat) (un : Option String) (now : Nat)
    (pOk : Bool) (e : String) (newId : Nat) (hC : mailCount db uid < 100) :
    newmail_handler db uid un now pOk (some e) newId =
      ⟨⟨(ensureUser db uid un now).users, db.mails ++ [⟨newId, uid, e, true, now⟩]⟩,
        .success e (mailCount db uid + 1), none⟩ := by
  simp only [newmail_handler, MAX_MAILS_PER_USER, mailCount_ensureUser]
  rw [if_neg (by omega), if_pos hC]
  simp [ensureUser_mails]

theorem newmail_under_none (db : DB) (uid : Nat) (un : Option String) (now : Nat)
    (pOk : Bool) (newId : Nat) (hC : mailCount db uid < 100) :
    newmail_handler db uid un now pOk none newId =
      ⟨⟨(ensureUser db uid un now).users, db.mails⟩, .createFailed, none⟩ := by
  simp only [newmail_handler, MAX_MAILS_PER_USER, mailCount_ensureUser]
  rw [if_neg (by omega)]
  conv_rhs => rw [← ensureUser_mails db uid un now]

theorem newmail_over_some (db : DB) (uid : Nat) (un : Option String) (now : Nat)
    (pOk : Bool) (e : String) (newId : Nat) (m : Mail)
    (hm : oldestMail db uid = some m) (hC : 100 ≤ mailCount db uid) :
    newmail_handler db uid un now pOk (some e) newId =
      ⟨⟨(ensureUser db uid un now).users,
         db.mails.filter (fun x => x.id != m.id) ++ [⟨newId, uid, e, true, now⟩]⟩,
        .success e (mailCount db uid), some m.email⟩ := by
  simp only [newmail_handler, handle_mail_limit, MAX_MAILS_PER_USER,
    mailCount_ensureUser, oldestMail_ensureUser, hm, deleteMailById]
  rw [if_pos hC, if_neg (by omega)]
  simp [ensureUser_mails]

theorem newmail_over_none (db : DB) (uid : Nat) (un : Option String) (now : Nat)
    (pOk : Bool) (newId : Nat) (m : Mail)
    (hm : oldestMail db uid = some m) (hC : 100 ≤ mailCount db uid) :
    newmail_handler db uid un now pOk none newId =
      ⟨⟨(ensureUser db uid un now).users, db.mails.filter (fun x => x.id != m.id)⟩,
        .createFailed, some m.email⟩ := by
  simp only [newmail_handler, handle_mail_limit, MAX_MAILS_PER_USER,
    mailCount_ensureUser, oldestMail_ensureUser, hm, deleteMailById]
  rw [if_pos hC]
  simp [ensureUser_mails]

theorem mailCount_append_own (U : List User) (l : List Mail) (x : Mail) (uid : Nat)
    (hx : x.user_id = uid) :
    mailCount ⟨U, l ++ [x]⟩ uid = (l.filter (fun m => m.user_id == uid)).length + 1 := by
  simp [mailCount, List.filter_append, hx]

theorem filter_ne_id_length (m : Mail) (l : List Mail)
    (hnd : (l.map Mail.id).Nodup) (hm : m ∈ l) :
    (l.filter (fun x => x.id != m.id)).length + 1 = l.length := by
  induction l with
  | nil => cases hm
  | cons a l ih =>
    rw [List.map_cons, List.nodup_cons] at hnd
    obtain ⟨ha, hnd'⟩ := hnd
    rcases List.mem_cons.mp hm with rfl | hm'
    · have hall : l.filter (fun x => x.id != m.id) = l := by
        apply List.filter_eq_self.mpr
        intro x hx
        simp only [bne_iff_ne, ne_eq]
        intro hxe
        exact ha (hxe ▸ List.mem_map_of_mem Mail.id hx)
      simp [List.filter_cons, hall]
    · have hne : a.id ≠ m.id := fun h => ha (h ▸ List.mem_map_of_mem Mail.id hm')
      have hrec := ih hnd' hm'
      simpa [List.filter_cons, hne] using hrec

/-! ### Claims about the quota and eviction policy of `newmail.py` -/

/-- C1: for a user whose mailbox count is at most 100 before `/newmail`,
the count is still at most 100 in the state `newmail_handler` commits,
whatever the provider answers — the bound 100 is an invariant of the
create operation (under the store's primary-key invariant on mail ids). -/
theorem newmail_keeps_count_le_limit (db : DB) (uid : Nat) (un : Option String)
    (now : Nat) (pOk : Bool) (createResult : Option String) (newId : Nat)
    (hids : (db.mails.map Mail.id).Nodup) (h : mailCount db uid ≤ 100) :
    mailCount (newmail_handler db uid un now pOk createResult newId).db uid ≤ 100 := by
  rcases Nat.lt_or_ge (mailCount db uid) 100 with hlt | hge
  · cases createResult with
    | none =>
        rw [newmail_under_none db uid un now pOk newId hlt]
        simpa [mailCount] using h
    | some e =>
        rw [newmail_under_some db uid un now pOk e newId hlt,
          mailCount_append_own _ _ _ uid rfl]
        unfold mailCount at hlt
        omega
  · obtain ⟨m, hm, hmem, hu, -⟩ := oldest_spec db uid (by omega)
    have hdel := filter_user_delete uid m db.mails hids hmem hu
    cases createResult with
    | none =>
        rw [newmail_over_none db uid un now pOk newId m hm hge]
        unfold mailCount at h ⊢
        dsimp only
        omega
    | some e =>
        rw [newmail_over_some db uid un now pOk e newId m hm hge,
          mailCount_append_own _ _ _ uid rfl]
        unfold mailCount at h
        omega

/-- Witness for C1 at a concrete store. -/
theorem newmail_keeps_count_le_limit_witness :
    ((dbW.mails.map Mail.id).Nodup ∧ mailCount dbW 1 ≤ 100) ∧
    mailCount (newmail_handler dbW 1 none 7 true (some "c@x") 12).db 1 ≤ 100 :=
  ⟨⟨by decide, by decide⟩,
    newmail_keeps_count_le_limit dbW 1 none 7 true (some "c@x") 12
      (by decide) (by decide)⟩

/-- C2: for a user at or over the limit, a successful `/newmail` evicts
exactly one mailbox — an oldest-by-creation-timestamp one — then inserts
exactly one new mailbox; the user's count is unchanged, and equals 100
when it was exactly 100 before. -/
theorem newmail_at_limit_evicts_oldest (db : DB) (uid : Nat) (un : Option String)
    (now : Nat) (pOk : Bool) (e : String) (newId : Nat)
    (hids : (db.mails.map Mail.id).Nodup) (hC : 100 ≤ mailCount db uid) :
    ∃ m, m ∈ db.mails ∧ m.user_id = uid ∧
      (∀ m' ∈ db.mails, m'.user_id = uid → m.created_at ≤ m'.created_at) ∧
      (newmail_handler db uid un now pOk (some e) newId).db.mails
        = db.mails.filter (fun x => x.id != m.id) ++ [⟨newId, uid, e, true, now⟩] ∧
      (db.mails.filter (fun x => x.id != m.id)).length + 1 = db.mails.length ∧
      mailCount (newmail_handler db uid un now pOk (some e) newId).db uid
        = mailCount db uid ∧
      (mailCount db uid = 100 →
        mailCount (newmail_handler db uid un now pOk (some e) newId).db uid = 100) := by
  obtain ⟨m, hm, hmem, hu, hmin⟩ := oldest_spec db uid (by omega)
  have hdel := filter_user_delete uid m db.mails hids hmem hu
  have hcount : mailCount (newmail_handler db uid un now pOk (some e) newId).db uid
      = mailCount db uid := by
    rw [newmail_over_some db uid un now pOk e newId m hm hC,
      mailCount_append_own _ _ _ uid rfl]
    unfold mailCount
    omega
  refine ⟨m, hmem, hu, hmin, ?_, ?_, hcount, fun h100 => by rw [hcount, h100]⟩
  · rw [newmail_over_some db uid un now pOk e newId m hm hC]
  · exact filter_ne_id_length m db.mails hids hmem

/-- Witness for C2 at a store holding exactly 100 mails. -/
theorem newmail_at_limit_evicts_oldest_witness :
    ((dbFull.mails.map Mail.id).Nodup ∧ 100 ≤ mailCount dbFull 1) ∧
    ∃ m, m ∈ dbFull.mails ∧ m.user_id = 1 ∧
      (∀ m' ∈ dbFull.mails, m'.user_id = 1 → m.created_at ≤ m'.created_at) ∧
      (newmail_handler dbFull 1 none 100 true (some "new@x") 1000).db.mails
        = dbFull.mails.filter (fun x => x.id != m.id) ++ [⟨1000, 1, "new@x", true, 100⟩] ∧
      (dbFull.mails.filter (fun x => x.id != m.id)).length + 1 = dbFull.mails.length ∧
      mailCount (newmail_handler dbFull 1 none 100 true (some "new@x") 1000).db 1
        = mailCount dbFull 1 ∧
      (mailCount dbFull 1 = 100 →
        mailCount (newmail_handler dbFull 1 none 100 true (some "new@x") 1000).db 1 = 100) :=
  ⟨⟨by decide, by decide⟩,
    newmail_at_limit_evicts_oldest dbFull 1 none 100 true "new@x" 1000
      (by decide) (by decide)⟩

/-- C3: for a user strictly under the limit (including zero mailboxes),
a successful `/newmail` appends exactly one mailbox, raises the user's
count by exactly 1, and takes no eviction branch. -/
theorem newmail_under_limit_adds_one (db : DB) (uid : Nat) (un : Option String)
    (now : Nat) (pOk : Bool) (e : String) (newId : Nat)
    (hC : mailCount db uid < 100) :
    (newmail_handler db uid un now pOk (some e) newId).db.mails
      = db.mails ++ [⟨newId, uid, e, true, now⟩] ∧
    mailCount (newmail_handler db uid un now pOk (some e) newId).db uid
      = mailCount db uid + 1 ∧
    (newmail_handler db uid un now pOk (some e) newId).evicted = none := by
  rw [newmail_under_some db uid un now pOk e newId hC]
  exact ⟨rfl, by rw [mailCount_append_own _ _ _ uid rfl]; rfl, rfl⟩

/-- Witness for C3, including the zero-mailbox case. -/
theorem newmail_under_limit_adds_one_witness :
    (mailCount dbW 1 < 100 ∧ mailCount ⟨[], []⟩ 5 < 100) ∧
    ((newmail_handler dbW 1 none 7 true (some "c@x") 12).db.mails
        = dbW.mails ++ [⟨12, 1, "c@x", true, 7⟩] ∧
      mailCount (newmail_handler dbW 1 none 7 true (some "c@x") 12).db 1
        = mailCount dbW 1 + 1 ∧
      (newmail_handler dbW 1 none 7 true (some "c@x") 12).evicted = none) ∧
    ((newmail_handler ⟨[], []⟩ 5 none 0 true (some "z@x") 1).db.mails
        = [⟨1, 5, "z@x", true, 0⟩] ∧
      mailCount (newmail_handler ⟨[], []⟩ 5 none 0 true (some "z@x") 1).db 5
        = mailCount ⟨[], []⟩ 5 + 1 ∧
      (newmail_handler ⟨[], []⟩ 5 none 0 true (some "z@x") 1).evicted = none) :=
  ⟨⟨by decide, by decide⟩,
    newmail_under_limit_adds_one dbW 1 none 7 true "c@x" 12 (by decide),
    newmail_under_limit_adds_one ⟨[], []⟩ 5 none 0 true "z@x" 1 (by decide)⟩

/-- C4: for a user at or over the limit, if `create_email` fails after
eviction ran, the handler returns the failure reply and commits the
evicted state: the count drops by one and no new row exists (every
remaining row was already present). -/
theorem newmail_create_failure_commits_eviction (db : DB) (uid : Nat)
    (un : Option String) (now : Nat) (pOk : Bool) (newId : Nat)
    (hids : (db.mails.map Mail.id).Nodup) (hC : 100 ≤ mailCount db uid) :
    (newmail_handler db uid un now pOk none newId).reply = .createFailed ∧
    mailCount (newmail_handler db uid un now pOk none newId).db uid
      = mailCount db uid - 1 ∧
    ∀ x ∈ (newmail_handler db uid un now pOk none newId).db.mails, x ∈ db.mails := by
  obtain ⟨m, hm, hmem, hu, -⟩ := oldest_spec db uid (by omega)
  have hdel := filter_user_delete uid m db.mails hids hmem hu
  rw [newmail_over_none db uid un now pOk newId m hm hC]
  refine ⟨rfl, ?_, ?_⟩
  · show ((db.mails.filter (fun x => x.id != m.id)).filter
        (fun x => x.user_id == uid)).length = mailCount db uid - 1
    unfold mailCount
    omega
  · intro x hx
    exact (List.mem_filter.mp hx).1

/-- Witness for C4 at a store holding exactly 100 mails. -/
theorem newmail_create_failure_commits_eviction_witness :
    ((dbFull.mails.map Mail.id).Nodup ∧ 100 ≤ mailCount dbFull 1) ∧
    ((newmail_handler dbFull 1 none 100 true none 1000).reply = .createFailed ∧
      mailCount (newmail_handler dbFull 1 none 100 true none 1000).db 1
        = mailCount dbFull 1 - 1 ∧
      ∀ x ∈ (newmail_handler dbFull 1 none 100 true none 1000).db.mails,
        x ∈ dbFull.mails) :=
  ⟨⟨by decide, by decide⟩,
    newmail_create_failure_commits_eviction dbFull 1 none 100 true 1000
      (by decide) (by decide)⟩

/-- C5: during eviction the provider-side deletion outcome is swallowed:
the handler's result does not depend on it, the evicted mailbox's store
row is removed either way, and the command still proceeds to create the
replacement and report success. -/
theorem eviction_ignores_provider_failure (db : DB) (uid : Nat) (un : Option String)
    (now : Nat) (e : String) (newId : Nat) (pOk : Bool)
    (hC : 100 ≤ mailCount db uid) :
    newmail_handler db uid un now pOk (some e) newId
      = newmail_handler db uid un now true (some e) newId ∧
    ∃ m, m ∈ db.mails ∧ m.user_id = uid ∧
      (newmail_handler db uid un now pOk (some e) newId).evicted = some m.email ∧
      (newmail_handler db uid un now pOk (some e) newId).db.mails
        = db.mails.filter (fun x => x.id != m.id) ++ [⟨newId, uid, e, true, now⟩] ∧
      (newmail_handler db uid un now pOk (some e) newId).reply
        = .success e (mailCount db uid) := by
  obtain ⟨m, hm, hmem, hu, -⟩ := oldest_spec db uid (by omega)
  rw [newmail_over_some db uid un now pOk e newId m hm hC,
    newmail_over_some db uid un now true e newId m hm hC]
  exact ⟨rfl, m, hmem, hu, rfl, rfl, rfl⟩

/-- Witness for C5: the provider-side deletion fails (`false`) and the
command still evicts and succeeds. -/
theorem eviction_ignores_provider_failure_witness :
    (100 ≤ mailCount dbFull 1) ∧
    (newmail_handler dbFull 1 none 100 false (some "new@x") 1000
        = newmail_handler dbFull 1 none 100 true (some "new@x") 1000 ∧
      ∃ m, m ∈ dbFull.mails ∧ m.user_id = 1 ∧
        (newmail_handler dbFull 1 none 100 false (some "new@x") 1000).evicted
          = some m.email ∧
        (newmail_handler dbFull 1 none 100 false (some "new@x") 1000).db.mails
          = dbFull.mails.filter (fun x => x.id != m.id) ++ [⟨1000, 1, "new@x", true, 100⟩] ∧
        (newmail_handler dbFull 1 none 100 false (some "new@x") 1000).reply
          = .success "new@x" (mailCount dbFull 1)) :=
  ⟨by decide,
    eviction_ignores_provider_failure dbFull 1 none 100 "new@x" 1000 false (by decide)⟩

/-- C6 (amended): for a pre-call count of at most 100, the reported
count equals `min(C+1, 100)`; when the pre-call count already exceeds
100, the handler reports the uncapped pre-call count instead (see the
counterexample). -/
theorem newmail_reported_count (db : DB) (uid : Nat) (un : Option String)
    (now : Nat) (pOk : Bool) (e : String) (newId : Nat)
    (hC : mailCount db uid ≤ 100) :
    (newmail_handler db uid un now pOk (some e) newId).reply
      = .success e (min (mailCount db uid + 1) 100) := by
  rcases Nat.lt_or_ge (mailCount db uid) 100 with hlt | hge
  · rw [newmail_under_some db uid un now pOk e newId hlt,
      Nat.min_eq_left (by omega : mailCount db uid + 1 ≤ 100)]
  · obtain ⟨m, hm, -, -, -⟩ := oldest_spec db uid (by omega)
    have h100 : mailCount db uid = 100 := Nat.le_antisymm hC hge
    rw [newmail_over_some db uid un now pOk e newId m hm hge, h100]
    rfl

/-- Witness for C6 at the limit: 100 mails before, reported count
`min(101, 100) = 100`. -/
theorem newmail_reported_count_witness :
    (mailCount dbFull 1 ≤ 100) ∧
    (newmail_handler dbFull 1 none 100 true (some "new@x") 1000).reply
      = .success "new@x" (min (mailCount dbFull 1 + 1) 100) :=
  ⟨by decide, newmail_reported_count dbFull 1 none 100 true "new@x" 1000 (by decide)⟩

/-- C6 (counterexample): with a pre-existing count of 101 the handler
reports 101, not `min(101 + 1, 100) = 100` — the reported value can
exceed the limit. -/
theorem newmail_reported_count_counterexample :
    mailCount dbOver 1 = 101 ∧
    (newmail_handler dbOver 1 none 200 true (some "n@d") 999).reply
      = .success "n@d" 101 ∧
    (101 : Nat) ≠ min (101 + 1) 100 := by
  refine ⟨by decide, ?_, by decide⟩
  decide

/-! ### Claims about the delete-selection flow of `deletemail.py` -/

theorem find_digit_in_range (stored : List StoredMail) (s : String)
    (hdig : isDigitString s = true) (h1 : 1 ≤ natOfDigits s)
    (h2 : natOfDigits s ≤ stored.length) :
    find_mail_to_delete stored s = stored[natOfDigits s - 1]? := by
  unfold find_mail_to_delete
  rw [if_pos hdig]
  have hrange : (0 : Int) ≤ (natOfDigits s : Int) - 1 ∧
      (natOfDigits s : Int) - 1 < (stored.length : Int) := by
    constructor <;> omega
  rw [if_pos hrange]
  congr 1
  omega

theorem find_digit_out_of_range (stored : List StoredMail) (s : String)
    (hdig : isDigitString s = true)
    (h : ¬(1 ≤ natOfDigits s ∧ natOfDigits s ≤ stored.length)) :
    find_mail_to_delete stored s = none := by
  unfold find_mail_to_delete
  rw [if_pos hdig]
  rw [if_neg]
  omega

theorem find?_unique {α : Type} (p : α → Bool) (l : List α) (m : α)
    (hm : m ∈ l) (hpm : p m = true) (huniq : ∀ x ∈ l, p x = true → x = m) :
    l.find? p = some m := by
  induction l with
  | nil => cases hm
  | cons a l ih =>
    by_cases hpa : p a = true
    · rw [List.find?_cons_of_pos _ hpa]
      exact congrArg some (huniq a (List.mem_cons_self a l) hpa)
    · rw [List.find?_cons_of_neg _ hpa]
      rcases List.mem_cons.mp hm with rfl | hm'
      · exact absurd hpm hpa
      · exact ih hm' (fun x hx => huniq x (List.mem_cons_of_mem _ hx))

theorem delete_handler_eq (db : DB) (uid : Nat) (stored : List StoredMail)
    (raw : String) (b : Bool) (hne : stored ≠ []) :
    delete_confirmation_handler db uid stored raw b =
      match find_mail_to_delete stored (trimStr raw) with
      | none => ⟨db, .reprompt⟩
      | some sm =>
          match db.mails.find? (fun m => m.id == sm.id && m.user_id == uid) with
          | none => ⟨db, .notFound⟩
          | some dbm => ⟨deleteMailById db dbm.id, .deleted dbm.email⟩ := by
  unfold delete_confirmation_handler
  rw [if_neg]
  cases stored with
  | nil => exact absurd rfl hne
  | cons a t => simp

/-- C7: resolution of the user's reply against the displayed
(newest-first) list: a digit string selects the 1-based position it
denotes when in range; a non-digit reply selects the unique
case-insensitive address match; any other reply makes the handler
re-prompt with the store unchanged; and a resolved selection whose row
is still present for this user is the row the handler deletes. -/
theorem delete_selection_resolution (db : DB) (uid : Nat)
    (stored : List StoredMail) (b : Bool) :
    (∀ (s : String) (k : Nat), isDigitString s = true → natOfDigits s = k →
        1 ≤ k → k ≤ stored.length →
        find_mail_to_delete stored s = stored[k - 1]?) ∧
    (∀ (s : String) (m : StoredMail), isDigitString s = false → m ∈ stored →
        lowerStr m.email = lowerStr s →
        (∀ m' ∈ stored, lowerStr m'.email = lowerStr s → m' = m) →
        find_mail_to_delete stored s = some m) ∧
    (∀ raw : String, stored ≠ [] →
        (isDigitString (trimStr raw) = true →
          ¬(1 ≤ natOfDigits (trimStr raw) ∧
            natOfDigits (trimStr raw) ≤ stored.length)) →
        (isDigitString (trimStr raw) = false →
          ∀ m ∈ stored, lowerStr m.email ≠ lowerStr (trimStr raw)) →
        delete_confirmation_handler db uid stored raw b = ⟨db, .reprompt⟩) ∧
    (∀ (raw : String) (sm : StoredMail) (dbm : Mail), stored ≠ [] →
        find_mail_to_delete stored (trimStr raw) = some sm →
        db.mails.find? (fun m => m.id == sm.id && m.user_id == uid) = some dbm →
        delete_confirmation_handler db uid stored raw b
          = ⟨deleteMailById db dbm.id, .deleted dbm.email⟩) := by
  refine ⟨?_, ?_, ?_, ?_⟩
  · intro s k hdig hk h1 h2
    subst hk
    exact find_digit_in_range stored s hdig h1 h2
  · intro s m hdig hm hmatch huniq
    unfold find_mail_to_delete
    rw [if_neg (by simp [hdig])]
    refine find?_unique _ stored m hm (by simp [hmatch]) ?_
    intro x hx hpx
    exact huniq x hx (by simpa using hpx)
  · intro raw hne hdigcase hemailcase
    rw [delete_handler_eq db uid stored raw b hne]
    have hfind : find_mail_to_delete stored (trimStr raw) = none := by
      by_cases hd : isDigitString (trimStr raw) = true
      · exact find_digit_out_of_range stored (trimStr raw) hd (hdigcase hd)
      · have hd' : isDigitString (trimStr raw) = false := by
          simpa using hd
        unfold find_mail_to_delete
        rw [if_neg (by simp [hd'])]
        apply List.find?_eq_none.mpr
        intro x hx
        simpa using hemailcase hd' x hx
    rw [hfind]
  · intro raw sm dbm hne hfind hdbfind
    rw [delete_handler_eq db uid stored raw b hne, hfind]
    dsimp only
    rw [hdbfind]

/-- Witness for C7: the spec's example list, newest first — selector
"2" picks the second entry, "C@X" the case-insensitive match, "5" and
"zzz@x" re-prompt with the store unchanged, and a resolved selection
still present is deleted. -/
theorem delete_selection_resolution_witness :
    find_mail_to_delete storedW "2" = some ⟨2, "b@x"⟩ ∧
    find_mail_to_delete storedW "C@X" = some ⟨1, "c@x"⟩ ∧
    delete_confirmation_handler dbW 1 storedW "5" true = ⟨dbW, .reprompt⟩ ∧
    delete_confirmation_handler dbW 1 storedW "zzz@x" true = ⟨dbW, .reprompt⟩ := by
  obtain ⟨h1, h2, h3, -⟩ := delete_selection_resolution dbW 1 storedW true
  refine ⟨?_, ?_, ?_, ?_⟩
  · have := h1 "2" 2 (by decide) (by decide) (by decide) (by decide)
    rw [this]; decide
  · exact h2 "C@X" ⟨1, "c@x"⟩ (by decide) (by decide) (by decide) (by decide)
  · exact h3 "5" (by decide) (by decide) (by decide)
  · exact h3 "zzz@x" (by decide) (by decide) (by decide)

/-- C10: confirming a selection whose row is no longer in the store for
the requesting user ends the flow with a not-found report and no store
mutation. -/
theorem delete_stale_selection (db : DB) (uid : Nat) (stored : List StoredMail)
    (raw : String) (b : Bool) (sm : StoredMail) (hne : stored ≠ [])
    (hfind : find_mail_to_delete stored (trimStr raw) = some sm)
    (habs : ∀ m ∈ db.mails, ¬(m.id = sm.id ∧ m.user_id = uid)) :
    delete_confirmation_handler db uid stored raw b = ⟨db, .notFound⟩ := by
  rw [delete_handler_eq db uid stored raw b hne, hfind]
  have hnone : db.mails.find? (fun m => m.id == sm.id && m.user_id == uid) = none := by
    apply List.find?_eq_none.mpr
    intro x hx
    have := habs x hx
    simp only [Bool.and_eq_true, beq_iff_eq]
    tauto
  dsimp only
  rw [hnone]

/-- Witness for C10: the displayed list offers mail id 2, but the store
only holds rows of user 2; the flow reports not-found and leaves the
store unchanged. -/
theorem delete_stale_selection_witness :
    ((storedW ≠ []) ∧
      find_mail_to_delete storedW (trimStr "2") = some ⟨2, "b@x"⟩ ∧
      (∀ m ∈ (⟨[], [⟨2, 2, "b@x", true, 3⟩]⟩ : DB).mails,
        ¬(m.id = (⟨2, "b@x"⟩ : StoredMail).id ∧ m.user_id = 1))) ∧
    delete_confirmation_handler ⟨[], [⟨2, 2, "b@x", true, 3⟩]⟩ 1 storedW "2" true
      = ⟨⟨[], [⟨2, 2, "b@x", true, 3⟩]⟩, .notFound⟩ :=
  ⟨⟨by decide, by decide, by decide⟩,
    delete_stale_selection ⟨[], [⟨2, 2, "b@x", true, 3⟩]⟩ 1 storedW "2" true
      ⟨2, "b@x"⟩ (by decide) (by decide) (by decide)⟩

/-! ### Claims about the provider client of `mailgun.py` -/

theorem deleteRoutesLoop_spec (d : String → Nat) (rs : List Route) :
    (deleteRoutesLoop true d rs = .ok () ↔
      ∀ r ∈ rs, ∀ rid, r.id = some rid → rid ≠ "" →
        (d rid = 200 ∨ d rid = 404)) ∧
    (deleteRoutesLoop true d rs = .ok () ∨ deleteRoutesLoop true d rs = .error ()) := by
  induction rs with
  | nil => simp [deleteRoutesLoop]
  | cons r rs ih =>
    obtain ⟨hloop, hcases⟩ := ih
    obtain ⟨rid?, expr⟩ := r
    cases rid? with
    | none =>
      constructor
      · rw [show deleteRoutesLoop true d (⟨none, expr⟩ :: rs)
            = deleteRoutesLoop true d rs from rfl, hloop]
        constructor
        · intro h r' hr' rid hrid hne
          rcases List.mem_cons.mp hr' with rfl | hm
          · cases hrid
          · exact h r' hm rid hrid hne
        · intro h r' hr' rid hrid hne
          exact h r' (List.mem_cons_of_mem _ hr') rid hrid hne
      · exact hcases
    | some rid =>
      by_cases hrid : rid = ""
      · subst hrid
        have hstep : deleteRoutesLoop true d (⟨some "", expr⟩ :: rs)
            = deleteRoutesLoop true d rs := rfl
        constructor
        · rw [hstep, hloop]
          constructor
          · intro h r' hr' rid' hrid' hne
            rcases List.mem_cons.mp hr' with rfl | hm
            · cases hrid'
              exact absurd rfl hne
            · exact h r' hm rid' hrid' hne
          · intro h r' hr' rid' hrid' hne
            exact h r' (List.mem_cons_of_mem _ hr') rid' hrid' hne
        · rw [hstep]
          exact hcases
      · by_cases hst : d rid = 200 ∨ d rid = 404
        · have hroute : delete_route true (d rid) = .ok true := by
            unfold delete_route
            rw [if_neg (by simp), if_pos (by rcases hst with h | h <;> simp [h])]
          have hstep : deleteRoutesLoop true d (⟨some rid, expr⟩ :: rs)
              = deleteRoutesLoop true d rs := by
            conv_lhs => unfold deleteRoutesLoop
            dsimp only
            rw [if_pos hrid, hroute]
          constructor
          · rw [hstep, hloop]
            constructor
            · intro h r' hr' rid' hrid' hne
              rcases List.mem_cons.mp hr' with rfl | hm
              · cases hrid'
                exact hst
              · exact h r' hm rid' hrid' hne
            · intro h r' hr' rid' hrid' hne
              exact h r' (List.mem_cons_of_mem _ hr') rid' hrid' hne
          · rw [hstep]
            exact hcases
        · have hroute : delete_route true (d rid) = .error () := by
            unfold delete_route
            rw [if_neg (by simp), if_neg (by simpa using hst)]
          have hstep : deleteRoutesLoop true d (⟨some rid, expr⟩ :: rs)
              = .error () := by
            conv_lhs => unfold deleteRoutesLoop
            dsimp only
            rw [if_pos hrid, hroute]
          constructor
          · rw [hstep]
            constructor
            · intro h
              cases h
            · intro h
              exact absurd (h ⟨some rid, expr⟩ (List.mem_cons_self _ _) rid rfl hrid) hst
          · right
            exact hstep

/-- C8: `delete_email` returns `True` exactly when the route lookup
succeeds and deleting every looked-up route whose expression contains
the address as a substring (and that has a truthy id) answers 200 or
404; in every other case — lookup failure or an unexpected deletion
status — it raises `MailgunError`. -/
theorem delete_email_spec (cfg : Bool) (lookup : Option (List Route))
    (d : String → Nat) (address : String) (hcfg : cfg = true) :
    (delete_email cfg lookup d address = .ok true ↔
      ∃ items, lookup = some items ∧
        ∀ r ∈ items, strContains r.expression address = true →
          ∀ rid, r.id = some rid → rid ≠ "" → (d rid = 200 ∨ d rid = 404)) ∧
    (delete_email cfg lookup d address = .ok true ∨
      delete_email cfg lookup d address = .error ()) := by
  subst hcfg
  cases lookup with
  | none =>
    have h : delete_email true none d address = .error () := by
      unfold delete_email get_routes_for_email
      rw [if_neg (by simp), if_neg (by simp)]
    rw [h]
    constructor
    · constructor
      · intro hh
        cases hh
      · rintro ⟨items, hitems, -⟩
        cases hitems
    · right
      rfl
  | some items =>
    have hget : get_routes_for_email true (some items) address
        = .ok (items.filter (fun r => strContains r.expression address)) := by
      unfold get_routes_for_email
      rw [if_neg (by simp)]
    obtain ⟨hloop, hcases⟩ :=
      deleteRoutesLoop_spec d (items.filter (fun r => strContains r.expression address))
    have hcond : (∀ r ∈ items.filter (fun r => strContains r.expression address),
          ∀ rid, r.id = some rid → rid ≠ "" → (d rid = 200 ∨ d rid = 404)) ↔
        (∀ r ∈ items, strContains r.expression address = true →
          ∀ rid, r.id = some rid → rid ≠ "" → (d rid = 200 ∨ d rid = 404)) := by
      constructor
      · intro h r hr hc
        exact h r (List.mem_filter.mpr ⟨hr, hc⟩)
      · intro h r hr
        obtain ⟨hr', hc⟩ := List.mem_filter.mp hr
        exact h r hr' hc
    rcases hcases with hok | herr
    · have h : delete_email true (some items) d address = .ok true := by
        unfold delete_email
        rw [if_neg (by simp), hget]
        dsimp only
        rw [hok]
      rw [h]
      refine ⟨⟨fun _ => ⟨items, rfl, hcond.mp (hloop.mp hok)⟩, fun _ => rfl⟩,
        Or.inl rfl⟩
    · have h : delete_email true (some items) d address = .error () := by
        unfold delete_email
        rw [if_neg (by simp), hget]
        dsimp only
        rw [herr]
      rw [h]
      refine ⟨⟨fun hh => ?_, fun hh => ?_⟩, Or.inr rfl⟩
      · simp at hh
      · obtain ⟨items', hitems', hall⟩ := hh
        cases hitems'
        have hok2 : deleteRoutesLoop true d
            (items.filter (fun r => strContains r.expression address)) = .ok () :=
          hloop.mpr (hcond.mpr hall)
        rw [hok2] at herr
        simp at herr

/-- Witness for C8: a lookup with one matching truthy-id route answered
404, one matching id-less route, one matching empty-id route, and one
non-matching route; the deletion succeeds. -/
theorem delete_email_spec_witness :
    (true = true) ∧
    ((delete_email true (some routesW) delStatusW "a@x" = .ok true ↔
        ∃ items, some routesW = some items ∧
          ∀ r ∈ items, strContains r.expression "a@x" = true →
            ∀ rid, r.id = some rid → rid ≠ "" →
              (delStatusW rid = 200 ∨ delStatusW rid = 404)) ∧
      (delete_email true (some routesW) delStatusW "a@x" = .ok true ∨
        delete_email true (some routesW) delStatusW "a@x" = .error ())) :=
  ⟨rfl, delete_email_spec true (some routesW) delStatusW "a@x" rfl⟩

/-! ### Frame: per-user commands leave other users' mailboxes alone -/

theorem othersFilter_delete (l : List Mail) (uid : Nat) (m : Mail)
    (hm : m ∈ l) (hu : m.user_id = uid) (hids : (l.map Mail.id).Nodup) :
    (l.filter (fun x => x.id != m.id)).filter (fun x => !(x.user_id == uid))
      = l.filter (fun x => !(x.user_id == uid)) := by
  rw [List.filter_filter]
  apply List.filter_congr
  intro x hx
  by_cases hxu : x.user_id = uid
  · simp [hxu]
  · have hxid : x.id ≠ m.id := by
      intro hh
      have hxm : x = m := List.inj_on_of_nodup_map hids hx hm hh
      exact hxu (hxm ▸ hu)
    simp [hxu, hxid]

/-- C9: every command is filtered by the requesting user's identity:
for any provider outcomes and any input, neither `/newmail` (including
its eviction) nor the delete-confirmation step changes any mailbox row
owned by another user. -/
theorem per_user_commands_preserve_others (db : DB) (uid : Nat)
    (un : Option String) (now : Nat) (pOk : Bool) (createResult : Option String)
    (newId : Nat) (stored : List StoredMail) (raw : String)
    (hids : (db.mails.map Mail.id).Nodup) :
    othersOf (newmail_handler db uid un now pOk createResult newId).db uid
      = othersOf db uid ∧
    othersOf (delete_confirmation_handler db uid stored raw pOk).db uid
      = othersOf db uid := by
  constructor
  · rcases Nat.lt_or_ge (mailCount db uid) 100 with hlt | hge
    · cases createResult with
      | none =>
        rw [newmail_under_none db uid un now pOk newId hlt]
        rfl
      | some e =>
        rw [newmail_under_some db uid un now pOk e newId hlt]
        unfold othersOf
        simp [List.filter_append]
    · obtain ⟨m, hm, hmem, hu, -⟩ := oldest_spec db uid (by omega)
      cases createResult with
      | none =>
        rw [newmail_over_none db uid un now pOk newId m hm hge]
        unfold othersOf
        exact othersFilter_delete db.mails uid m hmem hu hids
      | some e =>
        rw [newmail_over_some db uid un now pOk e newId m hm hge]
        unfold othersOf
        rw [List.filter_append]
        simp only [List.filter_cons, List.filter_nil]
        rw [othersFilter_delete db.mails uid m hmem hu hids]
        simp
  · by_cases hst : stored = []
    · subst hst
      rfl
    · rw [delete_handler_eq db uid stored raw pOk hst]
      rcases hf : find_mail_to_delete stored (trimStr raw) with - | sm
      · rfl
      · dsimp only
        rcases hq : db.mails.find? (fun m => m.id == sm.id && m.user_id == uid)
            with - | dbm
        · rw [hq]
        · rw [hq]
          have hmem := List.mem_of_find?_eq_some hq
          have hpred := List.find?_some hq
          simp only [Bool.and_eq_true, beq_iff_eq] at hpred
          dsimp only
          unfold othersOf deleteMailById
          dsimp only
          exact othersFilter_delete db.mails uid dbm hmem hpred.2 hids

/-- Witness for C9: with two users in the store, user 1's `/newmail`
at the limit and user 1's delete flow both leave user 2's mailbox list
untouched. -/
theorem per_user_commands_preserve_others_witness :
    ((dbTwo.mails.map Mail.id).Nodup) ∧
    (othersOf (newmail_handler dbTwo 1 none 9 false (some "c@x") 30).db 1
        = othersOf dbTwo 1 ∧
      othersOf (delete_confirmation_handler dbTwo 1 storedW "1" false).db 1
        = othersOf dbTwo 1) :=
  ⟨by decide,
    per_user_commands_preserve_others dbTwo 1 none 9 false (some "c@x") 30 storedW "1"
      (by decide)⟩

end TempMail
